import Mathlib

/-! Verification of the payphone call-orchestration core (src/App.tsx) and
    the server route normalization (server route store). React state is
    modelled as an explicit record; each asynchronous orchestrator flow is
    modelled as the list of atomic effects it applies in program order. -/

namespace Payphone

/-- JS String.prototype.trim on a character list: drop whitespace from
    both ends. -/
def jsTrimL (l : List Char) : List Char :=
  ((l.dropWhile Char.isWhitespace).reverse.dropWhile Char.isWhitespace).reverse

/-- JS String.prototype.trim. -/
def jsTrimS (s : String) : String := String.mk (jsTrimL s.data)

/-- JS (d || '').replace(/\D/g, '').slice(0, 11): keep digits, cap at 11
    characters (connectFromDial). -/
def sanitizeNumber (s : String) : String :=
  String.mk ((s.data.filter Char.isDigit).take 11)

/-- JS arr.slice(-n): the most recent at most n entries. -/
def lastN (n : Nat) (l : List α) : List α := l.drop (l.length - n)

inductive Role
  | user
  | assistant
deriving DecidableEq

/-- ChatMsg in App.tsx. -/
structure ChatMsg where
  id : String
  role : Role
  text : String
  t : Nat
  pending : Bool := false
deriving DecidableEq

/-- ChatStatus from the 'ai' package, as used by the app. -/
inductive ChatStatus
  | ready
  | submitted
  | streaming
  | error
deriving DecidableEq

inductive RouteProvider
  | ollama
  | openai_compat
  | openclaw
deriving DecidableEq

/-- RouteConfig shared by the client and the server route store. -/
structure RouteConfig where
  number : String
  label : String
  provider : RouteProvider
  model : String
  voiceId : Option String := none
  baseUrl : Option String := none
  apiKey : Option String := none
  agentId : Option String := none
  avatarUrl : Option String := none
deriving DecidableEq

/-- The App component's orchestration state: the useState cells and refs
    of App.tsx that the call lifecycle touches. The greeting
    AbortController is a numbered token; aborted tokens are recorded. -/
structure AppState where
  dialed : String
  connectedNumber : Option String
  routes : List RouteConfig
  history : List ChatMsg
  speaking : Bool
  ttsPlaying : Bool
  audioPos : Nat
  chatStatus : ChatStatus
  input : String
  dialModalOpen : Bool
  dialAnimFrame : Nat
  dialAnimPlaying : Bool
  dialAnimTimer : Option Nat
  ringOn : Bool
  greetingCtl : Option Nat
  abortedCtls : List Nat
  nextCtl : Nat
deriving DecidableEq

/-- The initial values of the useState cells of App.tsx. -/
def initState : AppState where
  dialed := ""
  connectedNumber := none
  routes := []
  history := []
  speaking := false
  ttsPlaying := false
  audioPos := 0
  chatStatus := .ready
  input := ""
  dialModalOpen := false
  dialAnimFrame := 1
  dialAnimPlaying := false
  dialAnimTimer := none
  ringOn := false
  greetingCtl := none
  abortedCtls := []
  nextCtl := 0

def DIAL_ANIM_LAST_FRAME : Nat := 120

/-- stopDialAnim in App.tsx: clear the interval, stop, reset to frame 1. -/
def stopDialAnim (s : AppState) : AppState :=
  { s with dialAnimTimer := none, dialAnimPlaying := false, dialAnimFrame := 1 }

/-- stopRingtone in App.tsx: clear the pattern timer, silence the gain,
    stop and release the oscillators (the audio context is only
    suspended, which does not affect orchestration state). -/
def stopRingtone (s : AppState) : AppState := { s with ringOn := false }

/-- stopTts in App.tsx: pause and rewind the audio element, clear the
    playing flag. -/
def stopTts (s : AppState) : AppState := { s with ttsPlaying := false, audioPos := 0 }

/-- The greeting-abort step of hangup: abort any in-flight greeting fetch
    and null the controller ref. -/
def cancelGreeting (s : AppState) : AppState :=
  match s.greetingCtl with
  | some c => { s with abortedCtls := s.abortedCtls ++ [c], greetingCtl := none }
  | none => { s with greetingCtl := none }

/-- The state-clearing step of hangup: connected number, dial buffer,
    input, transcript, dial modal. -/
def clearCallState (s : AppState) : AppState :=
  { s with connectedNumber := none, dialed := "", input := "", history := [],
           dialModalOpen := false }

/-- hangup in App.tsx, composing its five steps in source order: cancel
    the greeting fetch, stop ringback, stop audio, clear the call state,
    reset the dial animation. -/
def hangup (s : AppState) : AppState :=
  stopDialAnim (clearCallState (stopTts (stopRingtone (cancelGreeting s))))

/-- The text of a not-yet-revealed assistant bubble. -/
def placeholderText : String := "…"

/-- setHistory(h => [...h, m].slice(-60)). -/
def appendHist (h : List ChatMsg) (m : ChatMsg) : List ChatMsg := lastN 60 (h ++ [m])

/-- Atomic effects performed by generateGreeting / sendText / playTts, in
    the order the source applies them. chatRequest and ttsIssue mark the
    outbound requests and do not change client state. -/
inductive Evt
  | setStatus (st : ChatStatus)
  | appendUser (id text : String) (t : Nat)
  | chatRequest (number text : String)
  | appendPlaceholder (id : String) (t : Nat)
  | stopRing
  | startRing
  | resetGreetingCtl
  | setSpeaking (b : Bool)
  | stopAudio
  | ttsIssue (text : String)
  | setTtsPlaying (b : Bool)
  | onStart (id text : String)
deriving DecidableEq

def applyEvt (s : AppState) : Evt → AppState
  | .setStatus st => { s with chatStatus := st }
  | .appendUser id text t =>
      { s with history := appendHist s.history ⟨id, .user, text, t, false⟩ }
  | .chatRequest _ _ => s
  | .appendPlaceholder id t =>
      { s with history := appendHist s.history ⟨id, .assistant, placeholderText, t, true⟩ }
  | .stopRing => stopRingtone s
  | .startRing => { s with ringOn := true }
  | .resetGreetingCtl =>
      { s with abortedCtls := s.abortedCtls ++ s.greetingCtl.toList,
               greetingCtl := some s.nextCtl, nextCtl := s.nextCtl + 1 }
  | .setSpeaking b => { s with speaking := b }
  | .stopAudio => stopTts s
  | .ttsIssue _ => s
  | .setTtsPlaying b => { s with ttsPlaying := b }
  | .onStart id text =>
      { s with history := s.history.map fun m =>
          if m.id = id then { m with text := text, pending := false } else m }

def runEvts (s : AppState) (l : List Evt) : AppState := l.foldl applyEvt s

/-- playTts in App.tsx as its effect sequence: no-op on empty text
    (or missing audio element, not modelled since the element is mounted);
    otherwise stop current audio, issue the synthesis request; on a
    non-ok response do nothing more; otherwise play, and when play()
    resolves set the playing flag and fire the caller's onStart callback,
    which reveals the placeholder message `id`. -/
def playTts (text id : String) (ttsOk playOk : Bool) : List Evt :=
  if text = "" then []
  else
    [.stopAudio, .ttsIssue text] ++
      (if ttsOk then
        (if playOk then [.setTtsPlaying true, .onStart id text] else [])
       else [])

/-- generateGreeting in App.tsx as its effect sequence in program order:
    abort and replace the greeting controller, start ringback, join on
    the greeting fetch and the optional dial-animation wait, stop
    ringback; a non-empty trimmed greeting then gets a placeholder bubble
    and is spoken, with speaking reset in a finally. `greeting` is the
    trimmed response text (empty on fetch or parse failure). The join
    timing itself is modelled separately by ringStopAt. -/
def generateGreeting (greeting id : String) (t : Nat) (ttsOk playOk : Bool) : List Evt :=
  [.resetGreetingCtl, .startRing, .stopRing] ++
    (if greeting = "" then []
     else [.appendPlaceholder id t, .setSpeaking true] ++
          playTts greeting id ttsOk playOk ++ [.setSpeaking false])

/-- sendText in App.tsx as its effect sequence: no-op unless connected
    and the trimmed input is non-empty; otherwise mark submitted, append
    the user message, issue the chat request; an empty reply only resets
    the status; a non-empty reply gets a placeholder bubble, ringback is
    stopped, and the reply is spoken, with speaking and status reset in a
    finally. `reply` is data.text || ''. -/
def sendText (s : AppState) (raw uid aid : String) (tu ta : Nat)
    (reply : String) (ttsOk playOk : Bool) : List Evt :=
  match s.connectedNumber with
  | none => []
  | some n =>
    let userText := jsTrimS raw
    if userText = "" then []
    else
      [.setStatus .submitted, .appendUser uid userText tu, .chatRequest n userText] ++
        (if reply = "" then [.setStatus .ready]
         else [.appendPlaceholder aid ta, .stopRing, .setSpeaking true] ++
              playTts reply aid ttsOk playOk ++ [.setSpeaking false, .setStatus .ready])

/-- connectFromDial in App.tsx: the synchronous part of a dial. Sanitize
    the number; unresolved numbers are a no-op. On a match, stop any dial
    animation timer holding the final frame, set the connected number,
    close the dial pad, hold the last animation frame, then fire
    generateGreeting whose synchronous head (controller reset and
    ringback start) runs before its first await. -/
def connectFromDial (s : AppState) (d : String) : AppState :=
  let number := sanitizeNumber d
  if number = "" then s
  else
    match s.routes.find? (fun r => r.number == number) with
    | none => s
    | some _ =>
      runEvts
        { s with dialAnimTimer := none, dialAnimPlaying := false,
                 connectedNumber := some number, dialModalOpen := false,
                 dialAnimFrame := DIAL_ANIM_LAST_FRAME }
        [.resetGreetingCtl, .startRing]

/-- onKey in App.tsx (the DTMF tone is cosmetic and stateless): star hangs
    up, hash dials the buffer, a digit appends to the buffer capped at 11. -/
def onKey (s : AppState) (k : Char) : AppState :=
  if k = '*' then hangup s
  else if k = '#' then connectFromDial s s.dialed
  else if k.isDigit then { s with dialed := String.mk ((s.dialed.data ++ [k]).take 11) }
  else s

/-- waitForDialAnimToFinish in App.tsx: the poll checks at 0, 50, 100, …
    ms and resolves at the first check at which the animation has stopped
    (at `animEndsAt`) and `minMs` has elapsed; this is its resolution
    instant. -/
def waitForDialAnimToFinish (animEndsAt minMs : Nat) : Nat :=
  50 * ((max animEndsAt minMs + 49) / 50)

/-- The instant generateGreeting stops ringback: Promise.all joins the
    greeting fetch (settling at `tg`) with the dial-animation wait (used
    only on the directory path), so ringback stops when the later of the
    two settles. -/
def ringStopAt (waitForAnim : Bool) (tg animEndsAt : Nat) : Nat :=
  max tg (if waitForAnim then waitForDialAnimToFinish animEndsAt 0 else 0)

/-- Atomic effects of the address-book frame animator (playAbAnim and its
    interval body in App.tsx). -/
inductive AbEvt
  | clearTimer
  | startTimer
  | setFrame (n : Int)
  | setPlaying (b : Bool)
  | fireDone
deriving DecidableEq

/-- The interval body of playAbAnim: each tick steps i by the direction;
    once past `toF`, clear the timer, stop, clamp the frame to exactly
    `toF` and fire onDone. The fuel bounds the tick count and is chosen
    large enough by playAbAnim. -/
def abLoop (dirPos : Bool) (toF : Int) : Nat → Int → List AbEvt
  | 0, _ => []
  | fuel + 1, i =>
    let i2 := if dirPos then i + 1 else i - 1
    let done := if dirPos then toF < i2 else i2 < toF
    if done then [.clearTimer, .setPlaying false, .setFrame toF, .fireDone]
    else .setFrame i2 :: abLoop dirPos toF fuel i2

/-- playAbAnim in App.tsx: first cancel any running interval, show
    `fromF`, mark playing, start a fresh interval and run it to
    completion. `hasTimer` is whether abTimerRef held a live interval. -/
def playAbAnim (hasTimer : Bool) (fromF toF : Int) : List AbEvt :=
  (if hasTimer then [.clearTimer] else []) ++
    [.setFrame fromF, .setPlaying true, .startTimer] ++
    abLoop (fromF ≤ toF) toF ((fromF - toF).natAbs + 1) fromF

/-- The frames an animator event trace displays, in order. -/
def framesOf (l : List AbEvt) : List Int :=
  l.filterMap fun e => match e with | .setFrame n => some n | _ => none

/-- Number of live interval timers after a trace, starting from `start`
    (clearInterval is only issued on a held handle). -/
def timerCount (start : Nat) (l : List AbEvt) : Nat :=
  l.foldl
    (fun c e => match e with
      | AbEvt.clearTimer => c - 1
      | AbEvt.startTimer => c + 1
      | _ => c)
    start

/-- Count of onDone firings in a trace. -/
def doneCount (l : List AbEvt) : Nat :=
  (l.filter fun e => e == AbEvt.fireDone).length

/-- The strictly descending run i-1, i-2, …, i-d. -/
def descFrames (i : Int) : Nat → List Int
  | 0 => []
  | d + 1 => (i - 1) :: descFrames (i - 1) d

/-- A raw route row as received by the server (JSON fields may be
    absent). -/
structure RawRoute where
  number : Option String := none
  label : Option String := none
  provider : Option String := none
  model : Option String := none
  voiceId : Option String := none
  baseUrl : Option String := none
  apiKey : Option String := none
  agentId : Option String := none
  avatarUrl : Option String := none
deriving DecidableEq

/-- String(x ?? '').trim() || undefined. -/
def trimOpt (o : Option String) : Option String :=
  let t := jsTrimS (o.getD "")
  if t = "" then none else some t

/-- normalizeRoute in the server route store. -/
def normalizeRoute (r : RawRoute) : RouteConfig :=
  let number := jsTrimS (r.number.getD "")
  let p := jsTrimS (r.provider.getD "")
  let provider : RouteProvider :=
    if p = "openai_compat" then .openai_compat
    else if p = "openclaw" then .openclaw
    else .ollama
  { number := number
    label := r.label.getD number
    provider := provider
    model := r.model.getD ""
    voiceId := trimOpt r.voiceId
    baseUrl := trimOpt r.baseUrl
    apiKey :=
      if provider = .openai_compat ∨ provider = .openclaw then trimOpt r.apiKey else none
    agentId := if provider = .openclaw then trimOpt r.agentId else none
    avatarUrl := trimOpt r.avatarUrl }

/-- The /^\d{1,11}$/ test on a route number. -/
def validNumber (s : String) : Bool :=
  decide (1 ≤ s.data.length ∧ s.data.length ≤ 11) && s.data.all Char.isDigit

/-- The fully normalized route produced from one raw row: renormalized
    with its trimmed number, with an empty label defaulted to the number
    (the value normalizeRoutes pushes when the row survives its filters). -/
def finalizeRoute (r : RawRoute) : RouteConfig :=
  if (normalizeRoute { r with number := some (jsTrimS (r.number.getD "")) }).label = ""
  then { normalizeRoute { r with number := some (jsTrimS (r.number.getD "")) } with
         label := jsTrimS (r.number.getD "") }
  else normalizeRoute { r with number := some (jsTrimS (r.number.getD "")) }

/-- The loop body of normalizeRoutes in the server route store: skip
    numbers failing the digit pattern, skip numbers already seen (the
    number is recorded as seen before the model check, exactly as in the
    source — so a first occurrence dropped for an empty model still
    shadows later duplicates), skip routes with an empty model, and push
    the finalized route. -/
def normalizeRoutesGo (seen : List String) : List RawRoute → List RouteConfig
  | [] => []
  | r :: rest =>
    if validNumber (jsTrimS (r.number.getD "")) = false then normalizeRoutesGo seen rest
    else if seen.contains (jsTrimS (r.number.getD "")) then normalizeRoutesGo seen rest
    else if (normalizeRoute { r with number := some (jsTrimS (r.number.getD "")) }).model = ""
    then normalizeRoutesGo (jsTrimS (r.number.getD "") :: seen) rest
    else finalizeRoute r :: normalizeRoutesGo (jsTrimS (r.number.getD "") :: seen) rest

/-- normalizeRoutes in the server route store. -/
def normalizeRoutes (rs : List RawRoute) : List RouteConfig := normalizeRoutesGo [] rs

/-- Whether a raw row carries the (valid) number n. -/
def matchesNumber (n : String) (r : RawRoute) : Bool :=
  validNumber (jsTrimS (r.number.getD "")) && jsTrimS (r.number.getD "") == n

/-! ### Transcript bound (slice(-60)) -/

theorem length_lastN (n : Nat) (l : List α) : (lastN n l).length ≤ n := by
  simp only [lastN, List.length_drop]
  omega

theorem lastN_of_le (n : Nat) (l : List α) (h : l.length ≤ n) : lastN n l = l := by
  simp [lastN, Nat.sub_eq_zero_of_le h]

theorem lastN_append_lastN (n : Nat) (a b : List α) :
    lastN n (lastN n a ++ b) = lastN n (a ++ b) := by
  simp only [lastN, List.drop_append_eq_append_drop, List.drop_drop, List.length_append,
    List.length_drop]
  congr 1 <;> congr 1 <;> omega

theorem foldl_appendHist (ms : List ChatMsg) :
    ∀ h : List ChatMsg, h.length ≤ 60 → ms.foldl appendHist h = lastN 60 (h ++ ms) := by
  induction ms with
  | nil => intro h hh; simpa using (lastN_of_le 60 h hh).symm
  | cons m ms ih =>
    intro h hh
    rw [List.foldl_cons, ih (appendHist h m) (length_lastN 60 (h ++ [m]))]
    show lastN 60 (lastN 60 (h ++ [m]) ++ ms) = lastN 60 (h ++ m :: ms)
    rw [lastN_append_lastN]
    simp

/-- C5: the transcript is capped at the most recent 60 entries: any
    sequence of appends (user messages and assistant/greeting
    placeholders all go through the same slice(-60) update) starting from
    the empty transcript leaves at most 60 messages, namely exactly the
    most recently appended ones in their original relative order (so 100
    appends leave exactly the most recent 60). -/
theorem transcript_capped (ms : List ChatMsg) :
    (ms.foldl appendHist []).length ≤ 60 ∧
      ms.foldl appendHist [] = ms.drop (ms.length - 60) := by
  have h := foldl_appendHist ms [] (by simp)
  simp only [List.nil_append] at h
  exact ⟨h ▸ length_lastN 60 ms, h⟩

/-! ### Hang-up -/

/-- C6: hang-up is legal from any state (a total function), idempotent
    (a second hang-up, or one from the idle state, changes nothing), is
    the composition of its five steps in source order (cancel greeting
    fetch, stop ringback, stop audio, clear call state, reset dial
    animation), and leaves the system idle: no connected number, empty
    dial buffer, empty transcript, cleared input, no in-flight greeting
    controller, ringback off, audio stopped and rewound, dial animation
    reset to frame 1 with its timer cleared and the dial modal closed. -/
theorem hangup_idempotent (s : AppState) :
    hangup (hangup s) = hangup s ∧
    hangup s = stopDialAnim (clearCallState (stopTts (stopRingtone (cancelGreeting s)))) ∧
    hangup initState = initState ∧
    (hangup s).connectedNumber = none ∧
    (hangup s).dialed = "" ∧
    (hangup s).history = [] ∧
    (hangup s).input = "" ∧
    (hangup s).greetingCtl = none ∧
    (hangup s).ringOn = false ∧
    (hangup s).ttsPlaying = false ∧
    (hangup s).audioPos = 0 ∧
    (hangup s).dialAnimTimer = none ∧
    (hangup s).dialAnimPlaying = false ∧
    (hangup s).dialAnimFrame = 1 ∧
    (hangup s).dialModalOpen = false := by
  cases h : s.greetingCtl <;>
    simp [hangup, stopDialAnim, clearCallState, stopTts, stopRingtone, cancelGreeting, h,
      initState]

/-! ### The star key -/

/-- A concrete reachable not-connected state: the dial pad modal is open,
    three digits are entered, the dial animation rests on its final frame
    after playDialAnimOnce, and some chat input is typed. -/
def dialingState : AppState :=
  { initState with
    dialed := "123"
    dialModalOpen := true
    dialAnimFrame := 120
    input := "hi" }

/-- C7 counterexample: with no call connected, pressing the star key does
    not merely clear the dial buffer — it also closes the dial-pad modal,
    resets the dial-animation frame, and clears the input field, because
    onKey invokes the full hangup unconditionally. -/
theorem star_not_frame_preserving :
    dialingState.connectedNumber = none ∧
    dialingState.dialModalOpen = true ∧ (onKey dialingState '*').dialModalOpen = false ∧
    dialingState.dialAnimFrame = 120 ∧ (onKey dialingState '*').dialAnimFrame = 1 ∧
    dialingState.input = "hi" ∧ (onKey dialingState '*').input = "" ∧
    (onKey dialingState '*').dialed = "" := by
  decide

/-- C7 amended: pressing the star key always performs the full hang-up,
    whether or not a call is connected. This clears the dial buffer, but
    also closes the dial-pad modal, resets the dial animation to frame 1,
    clears the input field and the transcript, disconnects, and stops
    ringback and audio; when a call is connected this is the hang-up the
    claim describes. -/
theorem star_always_hangup (s : AppState) :
    onKey s '*' = hangup s ∧
    (onKey s '*').dialed = "" ∧
    (onKey s '*').dialModalOpen = false ∧
    (onKey s '*').history = [] ∧
    (onKey s '*').input = "" ∧
    (onKey s '*').dialAnimFrame = 1 ∧
    (onKey s '*').connectedNumber = none ∧
    (onKey s '*').ringOn = false ∧
    (onKey s '*').ttsPlaying = false := by
  have h := hangup_idempotent s
  have hk : onKey s '*' = hangup s := by simp [onKey]
  rw [hk]
  exact ⟨rfl, h.2.2.2.2.1, h.2.2.2.2.2.2.2.2.2.2.2.2.2.2, h.2.2.2.2.2.1, h.2.2.2.2.2.2.1,
    h.2.2.2.2.2.2.2.2.2.2.2.2.2.1, h.2.2.2.1, h.2.2.2.2.2.2.2.2.1, h.2.2.2.2.2.2.2.2.2.1⟩

/-! ### Send guards -/

/-- C9: a send with no connected number, or whose trimmed content is
    empty, is a complete no-op: sendText performs no effect at all — the
    transcript is untouched, the chat status is never moved, and no chat
    request is issued. -/
theorem sendText_guard_noop (s : AppState) (raw uid aid : String) (tu ta : Nat)
    (reply : String) (ttsOk playOk : Bool)
    (h : s.connectedNumber = none ∨ jsTrimS raw = "") :
    sendText s raw uid aid tu ta reply ttsOk playOk = [] ∧
      runEvts s (sendText s raw uid aid tu ta reply ttsOk playOk) = s := by
  rcases h with h | h
  · simp [sendText, h, runEvts]
  · cases hc : s.connectedNumber <;> simp [sendText, h, hc, runEvts]

/-- C9 witness: sending the whitespace-only string from the initial
    (idle) state is a no-op. -/
theorem sendText_guard_noop_witness :
    (initState.connectedNumber = none ∨ jsTrimS " \t " = "") ∧
      (sendText initState " \t " "u1" "a1" 3 4 "reply" true true = [] ∧
        runEvts initState (sendText initState " \t " "u1" "a1" 3 4 "reply" true true) =
          initState) :=
  ⟨Or.inl rfl, sendText_guard_noop initState " \t " "u1" "a1" 3 4 "reply" true true
    (Or.inl rfl)⟩

/-! ### Dialing a new number while connected -/

def routeA : RouteConfig := { number := "1", label := "A", provider := .ollama, model := "m" }

def routeB : RouteConfig := { number := "2", label := "B", provider := .ollama, model := "m" }

/-- A concrete state connected to route "1": one assistant message in the
    transcript, reply audio still playing, greeting controller 0 retired. -/
def connectedState : AppState :=
  { initState with
    routes := [routeA, routeB]
    connectedNumber := some "1"
    history := [⟨"a1", .assistant, "hello", 5, false⟩]
    ttsPlaying := true
    nextCtl := 1 }

/-- C1 counterexample: dialing the configured number "2" while connected
    to "1" establishes the new session without tearing the previous one
    down — the old transcript is intact (not cleared) and the playing
    audio has not been stopped at the moment the new connected number is
    already set. -/
theorem connectFromDial_no_teardown :
    connectedState.connectedNumber = some "1" ∧
    (connectFromDial connectedState "2").connectedNumber = some "2" ∧
    (connectFromDial connectedState "2").history = connectedState.history ∧
    (connectFromDial connectedState "2").history ≠ [] ∧
    (connectFromDial connectedState "2").ttsPlaying = true := by
  decide

/-- What a successful connectFromDial actually does: the new number is
    connected, the dial modal closes, the dial animation is stopped on
    its held last frame, any in-flight greeting fetch is aborted and a
    fresh controller installed, and ringback starts — while the previous
    session's transcript, input, audio position and playing flag are all
    left untouched. -/
def ConnectOutcome (s : AppState) (d : String) : Prop :=
  (connectFromDial s d).connectedNumber = some (sanitizeNumber d) ∧
  (connectFromDial s d).history = s.history ∧
  (connectFromDial s d).ttsPlaying = s.ttsPlaying ∧
  (connectFromDial s d).audioPos = s.audioPos ∧
  (connectFromDial s d).input = s.input ∧
  (connectFromDial s d).speaking = s.speaking ∧
  (connectFromDial s d).ringOn = true ∧
  (connectFromDial s d).dialModalOpen = false ∧
  (connectFromDial s d).dialAnimPlaying = false ∧
  (connectFromDial s d).dialAnimTimer = none ∧
  (connectFromDial s d).dialAnimFrame = DIAL_ANIM_LAST_FRAME ∧
  (connectFromDial s d).greetingCtl = some s.nextCtl ∧
  (connectFromDial s d).abortedCtls = s.abortedCtls ++ s.greetingCtl.toList

/-- C1 amended: a new successful dial while connected replaces the
    connected number, cancels the in-flight greeting fetch and restarts
    ringback, but does NOT tear the previous session down: the previous
    transcript persists into the new session and playing audio is not
    stopped at establishment time (it is only stopped later, if and when
    the new greeting is spoken). Only hangup clears the transcript. -/
theorem connectFromDial_keeps_session (s : AppState) (d : String) (r : RouteConfig)
    (hn : sanitizeNumber d ≠ "")
    (hr : s.routes.find? (fun rt => rt.number == sanitizeNumber d) = some r) :
    ConnectOutcome s d := by
  unfold ConnectOutcome connectFromDial
  simp [hn, hr, runEvts, applyEvt, stopRingtone]

/-- C1 amended witness: dialing "2" from the concrete connected state. -/
theorem connectFromDial_keeps_session_witness :
    (sanitizeNumber "2" ≠ "" ∧
      connectedState.routes.find? (fun rt => rt.number == sanitizeNumber "2") = some routeB) ∧
    ConnectOutcome connectedState "2" :=
  ⟨⟨by decide, by decide⟩,
    connectFromDial_keeps_session connectedState "2" routeB (by decide) (by decide)⟩

/-! ### Placeholder append / reveal ordering -/

theorem self_mem_appendHist (h : List ChatMsg) (m : ChatMsg) : m ∈ appendHist h m := by
  unfold appendHist lastN
  rw [List.drop_append_of_le_length (by simp)]
  exact List.mem_append_right _ (List.mem_singleton.mpr rfl)

theorem mem_appendHist (h : List ChatMsg) (m x : ChatMsg) (hx : x ∈ appendHist h m) :
    x ∈ h ∨ x = m := by
  unfold appendHist lastN at hx
  have h2 := List.drop_subset _ _ hx
  rcases List.mem_append.mp h2 with h3 | h3
  · exact Or.inl h3
  · exact Or.inr (List.mem_singleton.mp h3)

/-- A single effect other than the onStart reveal (and other than a user
    append carrying the text) never introduces the final text `g` into
    the transcript. -/
theorem applyEvt_no_gtext (g : String) (hph : g ≠ placeholderText) (s : AppState) (e : Evt)
    (hOn : ∀ i tx, e ≠ Evt.onStart i tx)
    (hUser : ∀ i tx t2, e = Evt.appendUser i tx t2 → tx ≠ g)
    (hs : ∀ m ∈ s.history, m.text ≠ g) :
    ∀ m ∈ (applyEvt s e).history, m.text ≠ g := by
  intro m hm
  cases e with
  | appendUser i tx t2 =>
    rcases mem_appendHist _ _ _ hm with h | h
    · exact hs m h
    · subst h; exact hUser i tx t2 rfl
  | appendPlaceholder i t2 =>
    rcases mem_appendHist _ _ _ hm with h | h
    · exact hs m h
    · subst h; intro hc; exact hph hc.symm
  | onStart i tx => exact absurd rfl (hOn i tx)
  | setStatus st => exact hs m hm
  | chatRequest n2 tx => exact hs m hm
  | stopRing => exact hs m hm
  | startRing => exact hs m hm
  | resetGreetingCtl => exact hs m hm
  | setSpeaking b => exact hs m hm
  | stopAudio => exact hs m hm
  | ttsIssue tx => exact hs m hm
  | setTtsPlaying b => exact hs m hm

theorem runEvts_no_gtext (g : String) (hph : g ≠ placeholderText) :
    ∀ (l : List Evt) (s : AppState),
      (∀ m ∈ s.history, m.text ≠ g) →
      (∀ e ∈ l, (∀ i tx, e ≠ Evt.onStart i tx) ∧
        ∀ i tx t2, e = Evt.appendUser i tx t2 → tx ≠ g) →
      ∀ m ∈ (runEvts s l).history, m.text ≠ g := by
  intro l
  induction l with
  | nil => intro s hs _; simpa [runEvts] using hs
  | cons e l ih =>
    intro s hs hl
    have he := hl e (List.mem_cons_self e l)
    have hs2 := applyEvt_no_gtext g hph s e he.1 he.2 hs
    have h3 := ih (applyEvt s e) hs2 (fun e2 he2 => hl e2 (List.mem_cons_of_mem _ he2))
    simpa [runEvts] using h3

/-- generateGreeting never appends a user message. -/
theorem generateGreeting_no_user (g id : String) (t : Nat) (ttsOk playOk : Bool) :
    ∀ i tx t2, Evt.appendUser i tx t2 ∉ generateGreeting g id t ttsOk playOk := by
  intro i tx t2 h
  by_cases hg : g = "" <;> cases ttsOk <;> cases playOk <;>
    simp [generateGreeting, playTts, hg] at h

def isOnStart : Evt → Bool
  | .onStart _ _ => true
  | _ => false

/-- The pending assistant bubble generateGreeting/sendText append before
    speaking. -/
def PlaceholderMsg (id : String) (t : Nat) : ChatMsg :=
  ⟨id, .assistant, placeholderText, t, true⟩

/-- The speak contract over the greeting flow: at the instant the
    synthesis request is issued (event index 6) the transcript holds the
    pending placeholder and nowhere the final text; no transcript state
    reached without the onStart reveal ever contains the final text;
    onStart fires at most once, and exactly once — revealing the
    placeholder in place with pending cleared — when the synthesis
    response is ok and playback starts. -/
def RevealOutcome (s : AppState) (g id : String) (t : Nat) (ttsOk playOk : Bool) : Prop :=
  ((generateGreeting g id t ttsOk playOk).take 6 =
    [.resetGreetingCtl, .startRing, .stopRing, .appendPlaceholder id t,
     .setSpeaking true, .stopAudio]) ∧
  (generateGreeting g id t ttsOk playOk)[6]? = some (Evt.ttsIssue g) ∧
  PlaceholderMsg id t ∈
    (runEvts s ((generateGreeting g id t ttsOk playOk).take 6)).history ∧
  (∀ m ∈ (runEvts s ((generateGreeting g id t ttsOk playOk).take 6)).history,
    m.text ≠ g) ∧
  (∀ k, (∀ i tx, Evt.onStart i tx ∉ (generateGreeting g id t ttsOk playOk).take k) →
    ∀ m ∈ (runEvts s ((generateGreeting g id t ttsOk playOk).take k)).history,
      m.text ≠ g) ∧
  ((generateGreeting g id t ttsOk playOk).filter isOnStart).length ≤ 1 ∧
  (ttsOk = true → playOk = true →
    (generateGreeting g id t ttsOk playOk).filter isOnStart = [.onStart id g] ∧
    (⟨id, .assistant, g, t, false⟩ : ChatMsg) ∈
      (runEvts s (generateGreeting g id t ttsOk playOk)).history)

/-- The greeting half of the speak contract. -/
theorem greeting_reveal_aux (s : AppState) (g id : String) (t : Nat) (ttsOk playOk : Bool)
    (hg : g ≠ "") (hph : g ≠ placeholderText)
    (htx : ∀ m ∈ s.history, m.text ≠ g) :
    RevealOutcome s g id t ttsOk playOk := by
  have h6 : (generateGreeting g id t ttsOk playOk).take 6 =
      [.resetGreetingCtl, .startRing, .stopRing, .appendPlaceholder id t,
       .setSpeaking true, .stopAudio] := by
    cases ttsOk <;> cases playOk <;> simp [generateGreeting, playTts, hg]
  have hhist : (runEvts s ((generateGreeting g id t ttsOk playOk).take 6)).history =
      appendHist s.history (PlaceholderMsg id t) := by
    rw [h6]; simp [runEvts, applyEvt, stopRingtone, stopTts, PlaceholderMsg]
  refine ⟨h6, ?_, ?_, ?_, ?_, ?_, ?_⟩
  · cases ttsOk <;> cases playOk <;> simp [generateGreeting, playTts, hg]
  · rw [hhist]; exact self_mem_appendHist _ _
  · rw [hhist]
    intro m hm
    rcases mem_appendHist _ _ _ hm with h | h
    · exact htx m h
    · subst h; intro hc; exact hph hc.symm
  · intro k hk
    apply runEvts_no_gtext g hph _ s htx
    intro e he
    refine ⟨fun i tx heq => hk i tx (heq ▸ he), fun i tx t2 heq => ?_⟩
    subst heq
    exact absurd (List.take_subset _ _ he)
      (generateGreeting_no_user g id t ttsOk playOk i tx t2)
  · cases ttsOk <;> cases playOk <;> simp [generateGreeting, playTts, hg, isOnStart]
  · intro hT hP
    subst hT; subst hP
    constructor
    · simp [generateGreeting, playTts, hg, isOnStart]
    · have hfin : (runEvts s (generateGreeting g id t true true)).history =
          (appendHist s.history (PlaceholderMsg id t)).map
            (fun m => if m.id = id then { m with text := g, pending := false } else m) := by
        simp [generateGreeting, playTts, hg, runEvts, applyEvt, stopRingtone, stopTts,
          PlaceholderMsg]
      rw [hfin]
      exact List.mem_map.mpr ⟨PlaceholderMsg id t, self_mem_appendHist _ _,
        by simp [PlaceholderMsg]⟩

/-- The single appendUser effect of sendText carries the trimmed input
    text. -/
theorem sendText_appendUser_text (s : AppState) (raw uid aid : String) (tu ta : Nat)
    (reply : String) (ttsOk playOk : Bool) :
    ∀ i tx t2, Evt.appendUser i tx t2 ∈ sendText s raw uid aid tu ta reply ttsOk playOk →
      tx = jsTrimS raw := by
  intro i tx t2 h
  cases hc : s.connectedNumber with
  | none => simp [sendText, hc] at h
  | some n =>
    by_cases hu : jsTrimS raw = ""
    · simp [sendText, hc, hu] at h
    · by_cases hr : reply = "" <;> cases ttsOk <;> cases playOk <;>
        simp [sendText, hc, hu, hr, playTts] at h <;> exact h.2.1

/-- The speak contract over the chat-reply flow of sendText (connected to
    n, non-empty trimmed input, non-empty reply): at the instant the
    synthesis request is issued (event index 7) the transcript holds the
    user message and the pending placeholder and nowhere the reply text;
    no transcript state reached without the onStart reveal ever contains
    the reply text; onStart fires at most once, and exactly once —
    revealing the placeholder in place with pending cleared — when the
    synthesis response is ok and playback starts. -/
def RevealOutcomeChat (s : AppState) (n raw uid aid : String) (tu ta : Nat)
    (g : String) (ttsOk playOk : Bool) : Prop :=
  ((sendText s raw uid aid tu ta g ttsOk playOk).take 7 =
    [.setStatus .submitted, .appendUser uid (jsTrimS raw) tu,
     .chatRequest n (jsTrimS raw), .appendPlaceholder aid ta, .stopRing,
     .setSpeaking true, .stopAudio]) ∧
  (sendText s raw uid aid tu ta g ttsOk playOk)[7]? = some (Evt.ttsIssue g) ∧
  PlaceholderMsg aid ta ∈
    (runEvts s ((sendText s raw uid aid tu ta g ttsOk playOk).take 7)).history ∧
  (∀ m ∈ (runEvts s ((sendText s raw uid aid tu ta g ttsOk playOk).take 7)).history,
    m.text ≠ g) ∧
  (∀ k, (∀ i tx, Evt.onStart i tx ∉ (sendText s raw uid aid tu ta g ttsOk playOk).take k) →
    ∀ m ∈ (runEvts s ((sendText s raw uid aid tu ta g ttsOk playOk).take k)).history,
      m.text ≠ g) ∧
  ((sendText s raw uid aid tu ta g ttsOk playOk).filter isOnStart).length ≤ 1 ∧
  (ttsOk = true → playOk = true →
    (sendText s raw uid aid tu ta g ttsOk playOk).filter isOnStart = [.onStart aid g] ∧
    (⟨aid, .assistant, g, ta, false⟩ : ChatMsg) ∈
      (runEvts s (sendText s raw uid aid tu ta g ttsOk playOk)).history)

/-- The chat half of the speak contract. -/
theorem chat_reveal_aux (s : AppState) (n raw uid aid : String) (tu ta : Nat)
    (g : String) (ttsOk playOk : Bool)
    (hc : s.connectedNumber = some n) (hraw : jsTrimS raw ≠ "")
    (hg : g ≠ "") (hph : g ≠ placeholderText)
    (htx : ∀ m ∈ s.history, m.text ≠ g) (hur : jsTrimS raw ≠ g) :
    RevealOutcomeChat s n raw uid aid tu ta g ttsOk playOk := by
  have h7 : (sendText s raw uid aid tu ta g ttsOk playOk).take 7 =
      [.setStatus .submitted, .appendUser uid (jsTrimS raw) tu,
       .chatRequest n (jsTrimS raw), .appendPlaceholder aid ta, .stopRing,
       .setSpeaking true, .stopAudio] := by
    cases ttsOk <;> cases playOk <;> simp [sendText, hc, hraw, hg, playTts]
  have hhist : (runEvts s ((sendText s raw uid aid tu ta g ttsOk playOk).take 7)).history =
      appendHist (appendHist s.history ⟨uid, .user, jsTrimS raw, tu, false⟩)
        (PlaceholderMsg aid ta) := by
    rw [h7]
    simp [runEvts, applyEvt, stopRingtone, stopTts, PlaceholderMsg]
  refine ⟨h7, ?_, ?_, ?_, ?_, ?_, ?_⟩
  · cases ttsOk <;> cases playOk <;> simp [sendText, hc, hraw, hg, playTts]
  · rw [hhist]; exact self_mem_appendHist _ _
  · rw [hhist]
    intro m hm
    rcases mem_appendHist _ _ _ hm with h | h
    · rcases mem_appendHist _ _ _ h with h2 | h2
      · exact htx m h2
      · subst h2; exact hur
    · subst h; intro hcn; exact hph hcn.symm
  · intro k hk
    apply runEvts_no_gtext g hph _ s htx
    intro e he
    refine ⟨fun i tx heq => hk i tx (heq ▸ he), fun i tx t2 heq => ?_⟩
    subst heq
    rw [sendText_appendUser_text s raw uid aid tu ta g ttsOk playOk i tx t2
      (List.take_subset _ _ he)]
    exact hur
  · cases ttsOk <;> cases playOk <;> simp [sendText, hc, hraw, hg, playTts, isOnStart]
  · intro hT hP
    subst hT; subst hP
    constructor
    · simp [sendText, hc, hraw, hg, playTts, isOnStart]
    · have hfin : (runEvts s (sendText s raw uid aid tu ta g true true)).history =
          (appendHist (appendHist s.history ⟨uid, .user, jsTrimS raw, tu, false⟩)
            (PlaceholderMsg aid ta)).map
            (fun m => if m.id = aid then { m with text := g, pending := false } else m) := by
        simp [sendText, hc, hraw, hg, playTts, runEvts, applyEvt, stopRingtone, stopTts,
          PlaceholderMsg]
      rw [hfin]
      exact List.mem_map.mpr ⟨PlaceholderMsg aid ta, self_mem_appendHist _ _,
        by simp [PlaceholderMsg]⟩

/-- C3: for every successful speak — the greeting flow and the chat-reply
    flow alike — the pending placeholder is in the transcript at the
    moment the synthesis request is issued, the real text appears only
    after the audio-start callback fires (never before), and the
    audio-start callback fires at most once per speak. -/
theorem placeholder_reveal (s : AppState) (g gid : String) (gt : Nat)
    (n raw uid aid : String) (tu ta : Nat) (ttsOk playOk : Bool)
    (hg : g ≠ "") (hph : g ≠ placeholderText)
    (htx : ∀ m ∈ s.history, m.text ≠ g)
    (hc : s.connectedNumber = some n) (hraw : jsTrimS raw ≠ "")
    (hur : jsTrimS raw ≠ g) :
    RevealOutcome s g gid gt ttsOk playOk ∧
      RevealOutcomeChat s n raw uid aid tu ta g ttsOk playOk :=
  ⟨greeting_reveal_aux s g gid gt ttsOk playOk hg hph htx,
    chat_reveal_aux s n raw uid aid tu ta g ttsOk playOk hc hraw hg hph htx hur⟩

/-- C3 witness: a concrete successful greeting speak and chat-reply speak
    from the connected state. -/
theorem placeholder_reveal_witness :
    ("hey" ≠ "" ∧ "hey" ≠ placeholderText ∧
      (∀ m ∈ connectedState.history, m.text ≠ "hey") ∧
      connectedState.connectedNumber = some "1" ∧
      jsTrimS "what is up" ≠ "" ∧ jsTrimS "what is up" ≠ "hey") ∧
    (RevealOutcome connectedState "hey" "gid1" 9 true true ∧
      RevealOutcomeChat connectedState "1" "what is up" "u1" "a2" 3 4 "hey" true true) :=
  ⟨⟨by decide, by decide, by decide, by decide, by decide, by decide⟩,
    placeholder_reveal connectedState "hey" "gid1" 9 "1" "what is up" "u1" "a2" 3 4
      true true (by decide) (by decide) (by decide) (by decide) (by decide) (by decide)⟩

/-! ### Empty upstream content -/

/-- What an empty upstream reply leads to. For a chat send in the
    connected state whose reply resolves empty: only the user message is
    appended (transcript otherwise unchanged), no placeholder is added,
    the Playback Driver is never invoked (no ttsIssue effect), the status
    cycles ready → submitted → ready, and the call stays connected with
    ringback untouched by this path. For a greeting that resolves empty:
    ringback still stops (the join-then-stop happens before the empty
    check), the transcript is unchanged and nothing is spoken. -/
def EmptyUpstreamOutcome (s : AppState) (raw uid aid : String) (tu ta : Nat)
    (n : String) : Prop :=
  (sendText s raw uid aid tu ta "" true true =
    [.setStatus .submitted, .appendUser uid (jsTrimS raw) tu,
     .chatRequest n (jsTrimS raw), .setStatus .ready]) ∧
  (runEvts s (sendText s raw uid aid tu ta "" true true)).history =
    appendHist s.history ⟨uid, .user, jsTrimS raw, tu, false⟩ ∧
  (runEvts s (sendText s raw uid aid tu ta "" true true)).chatStatus = .ready ∧
  (runEvts s (sendText s raw uid aid tu ta "" true true)).connectedNumber = some n ∧
  (runEvts s (sendText s raw uid aid tu ta "" true true)).ringOn = s.ringOn ∧
  (runEvts s (sendText s raw uid aid tu ta "" true true)).speaking = s.speaking ∧
  (runEvts s (sendText s raw uid aid tu ta "" true true)).ttsPlaying = s.ttsPlaying ∧
  (∀ tx, Evt.ttsIssue tx ∉ sendText s raw uid aid tu ta "" true true) ∧
  (∀ i t2, Evt.appendPlaceholder i t2 ∉ sendText s raw uid aid tu ta "" true true) ∧
  (s.chatStatus = .ready →
    (List.scanl applyEvt s (sendText s raw uid aid tu ta "" true true)).map
        AppState.chatStatus =
      [.ready, .submitted, .submitted, .submitted, .ready]) ∧
  (∀ (gid : String) (gt : Nat) (gOk pOk : Bool) (s2 : AppState),
    generateGreeting "" gid gt gOk pOk = [.resetGreetingCtl, .startRing, .stopRing] ∧
    (runEvts s2 (generateGreeting "" gid gt gOk pOk)).history = s2.history ∧
    (runEvts s2 (generateGreeting "" gid gt gOk pOk)).ringOn = false ∧
    (runEvts s2 (generateGreeting "" gid gt gOk pOk)).connectedNumber = s2.connectedNumber ∧
    (∀ tx, Evt.ttsIssue tx ∉ generateGreeting "" gid gt gOk pOk))

/-- C4: an empty upstream reply (failed or empty greeting/chat fetch)
    degrades to no speech: the chat path appends only the user message,
    never invokes the Playback Driver, cycles the status flag
    ready → submitted → ready and stays connected; the greeting path
    still stops ringback at the join and leaves the transcript alone. -/
theorem empty_reply_degrades (s : AppState) (raw uid aid : String) (tu ta : Nat)
    (n : String) (hc : s.connectedNumber = some n) (ht : jsTrimS raw ≠ "") :
    EmptyUpstreamOutcome s raw uid aid tu ta n := by
  unfold EmptyUpstreamOutcome
  simp [sendText, hc, ht, runEvts, applyEvt, stopRingtone, List.scanl, generateGreeting]

/-- C4 witness: sending "hi" from the concrete connected state with an
    empty reply. -/
theorem empty_reply_degrades_witness :
    (connectedState.connectedNumber = some "1" ∧ jsTrimS "hi" ≠ "") ∧
      EmptyUpstreamOutcome connectedState "hi" "u1" "a1" 3 4 "1" :=
  ⟨⟨by decide, by decide⟩,
    empty_reply_degrades connectedState "hi" "u1" "a1" 3 4 "1" (by decide) (by decide)⟩

/-! ### The greeting-ring join -/

/-- C2: on the directory path (waitForDialAnimDone requested), ringback
    stops exactly when the later of the greeting fetch and the
    dial-animation wait settles: the stop instant is the join (max) of
    the two, hence never earlier than the animation wait's resolution
    (which itself is never earlier than the instant the animation ends)
    and never earlier than the greeting settling — a fast greeting cannot
    stop ringback while the animation wait is pending, and vice versa. -/
theorem ringback_join (tg animEndsAt : Nat) :
    ringStopAt true tg animEndsAt = max tg (waitForDialAnimToFinish animEndsAt 0) ∧
    animEndsAt ≤ waitForDialAnimToFinish animEndsAt 0 ∧
    animEndsAt ≤ ringStopAt true tg animEndsAt ∧
    tg ≤ ringStopAt true tg animEndsAt ∧
    waitForDialAnimToFinish animEndsAt 0 ≤ ringStopAt true tg animEndsAt := by
  have hw : animEndsAt ≤ waitForDialAnimToFinish animEndsAt 0 := by
    simp only [waitForDialAnimToFinish, Nat.max_zero]
    omega
  refine ⟨rfl, hw, le_trans hw ?_, ?_, ?_⟩
  · exact le_max_right _ _
  · exact le_max_left _ _
  · exact le_max_right _ _

/-! ### The reversible frame animator -/

theorem abLoop_succ_desc (toF : Int) (fuel : Nat) (i : Int) :
    abLoop false toF (fuel + 1) i =
      if i - 1 < toF then [.clearTimer, .setPlaying false, .setFrame toF, .fireDone]
      else .setFrame (i - 1) :: abLoop false toF fuel (i - 1) := by
  simp [abLoop]

theorem abLoop_desc (toF : Int) : ∀ d : Nat,
    abLoop false toF (d + 1) (toF + (d : Int)) =
      (descFrames (toF + (d : Int)) d).map AbEvt.setFrame ++
        [.clearTimer, .setPlaying false, .setFrame toF, .fireDone] := by
  intro d
  induction d with
  | zero =>
    have h : toF + ((0 : Nat) : Int) - 1 < toF := by push_cast; omega
    rw [abLoop_succ_desc, if_pos h]
    simp [descFrames]
  | succ d ih =>
    have h : ¬(toF + ((d + 1 : Nat) : Int) - 1 < toF) := by push_cast; omega
    have e : toF + ((d + 1 : Nat) : Int) - 1 = toF + (d : Int) := by push_cast; ring
    rw [abLoop_succ_desc, if_neg h, e, ih]
    have e2 : toF + ((d : Int) + 1) - 1 = toF + (d : Int) := by ring
    simp [descFrames, e2]

theorem descFrames_chain (d : Nat) : ∀ i : Int,
    List.Chain' (fun a b => b = a - 1) (i :: descFrames i d) := by
  induction d with
  | zero => intro i; simp [descFrames]
  | succ d ih =>
    intro i
    simpa [descFrames] using ih (i - 1)

theorem descFrames_getLast (d : Nat) : ∀ i : Int,
    (i :: descFrames i d).getLast? = some (i - (d : Int)) := by
  induction d with
  | zero => intro i; simp [descFrames]
  | succ d ih =>
    intro i
    have e : i - 1 - (d : Int) = i - ((d + 1 : Nat) : Int) := by push_cast; ring
    rw [descFrames, List.getLast?_cons_cons, ih (i - 1), e]

theorem framesOf_append (x y : List AbEvt) :
    framesOf (x ++ y) = framesOf x ++ framesOf y := by
  simp [framesOf]

theorem doneCount_append (x y : List AbEvt) :
    doneCount (x ++ y) = doneCount x + doneCount y := by
  simp [doneCount]

theorem framesOf_map_setFrame (l : List Int) :
    framesOf (l.map AbEvt.setFrame) = l := by
  induction l with
  | nil => rfl
  | cons a l ih => simp [framesOf, List.filterMap_cons] at ih ⊢; exact ih

theorem doneCount_map_setFrame (l : List Int) :
    doneCount (l.map AbEvt.setFrame) = 0 := by
  induction l with
  | nil => rfl
  | cons a l _ => simp [doneCount, List.filter_cons]

theorem timerCount_map_setFrame (c : Nat) (l : List Int) :
    timerCount c (l.map AbEvt.setFrame) = c := by
  induction l generalizing c with
  | nil => rfl
  | cons a l ih => simpa [timerCount, List.foldl_cons] using ih c

theorem timerCount_append (base : Nat) (x y : List AbEvt) :
    timerCount base (x ++ y) = timerCount (timerCount base x) y := by
  simp [timerCount, List.foldl_append]

theorem timerCount_take_bound (x y : List AbEvt) (base : Nat)
    (hx : ∀ j, timerCount base (x.take j) ≤ 1)
    (hy : ∀ j, timerCount (timerCount base x) (y.take j) ≤ 1) :
    ∀ k, timerCount base ((x ++ y).take k) ≤ 1 := by
  intro k
  rw [List.take_append_eq_append_take, timerCount_append]
  by_cases hk : k ≤ x.length
  · have h0 : k - x.length = 0 := by omega
    rw [h0]
    simpa [timerCount] using hx k
  · rw [List.take_of_length_le (by omega)]
    exact hy (k - x.length)

/-- The contract of a reverse playRange (to < from): the displayed frames
    are `from` followed by the strict one-per-tick descent down to `to`
    and the final clamp write of exactly `to`; the descent really steps
    by exactly one and ends at `to`; onDone fires exactly once; and at
    most one interval timer is ever live at any point of the trace,
    because a running timer is cancelled first. -/
def PlayRangeOutcome (hasTimer : Bool) (fromF toF : Int) : Prop :=
  framesOf (playAbAnim hasTimer fromF toF) =
    fromF :: descFrames fromF (fromF - toF).toNat ++ [toF] ∧
  List.Chain' (fun a b => b = a - 1) (fromF :: descFrames fromF (fromF - toF).toNat) ∧
  (fromF :: descFrames fromF (fromF - toF).toNat).getLast? = some toF ∧
  doneCount (playAbAnim hasTimer fromF toF) = 1 ∧
  ∀ k, timerCount (if hasTimer then 1 else 0) ((playAbAnim hasTimer fromF toF).take k) ≤ 1

/-- C8: playRange with to < from strictly decrements the frame by one per
    tick from `from`, terminates clamped to exactly `to`, fires onDone
    exactly once, and never has two live timers (a prior timer is
    cancelled before the new interval starts). -/
theorem playRange_reverse (hasTimer : Bool) (fromF toF : Int) (h : toF < fromF) :
    PlayRangeOutcome hasTimer fromF toF := by
  have hstruct : playAbAnim hasTimer fromF toF =
      ((if hasTimer then [AbEvt.clearTimer] else []) ++
        [.setFrame fromF, .setPlaying true, .startTimer]) ++
      ((descFrames fromF (fromF - toF).toNat).map AbEvt.setFrame ++
        [.clearTimer, .setPlaying false, .setFrame toF, .fireDone]) := by
    unfold playAbAnim
    rw [show (decide (fromF ≤ toF)) = false from
      decide_eq_false_iff_not.mpr (not_le.mpr h)]
    rw [show (fromF - toF).natAbs + 1 = (fromF - toF).toNat + 1 from by omega]
    set D := (fromF - toF).toNat with hD
    rw [show fromF = toF + (D : Int) from by omega]
    exact congrArg _ (abLoop_desc toF D)
  refine ⟨?_, ?_, ?_, ?_, ?_⟩
  · rw [hstruct, framesOf_append, framesOf_append, framesOf_append, framesOf_map_setFrame]
    cases hasTimer <;> simp [framesOf, List.filterMap_cons]
  · exact descFrames_chain _ fromF
  · rw [descFrames_getLast]
    congr 1
    omega
  · rw [hstruct, doneCount_append, doneCount_append, doneCount_append, doneCount_map_setFrame]
    cases hasTimer <;> simp [doneCount, List.filter_cons]
  · rw [hstruct]
    apply timerCount_take_bound
    · apply timerCount_take_bound
      · cases hasTimer <;> intro j <;> rcases j with _ | j <;> simp [timerCount]
      · cases hasTimer <;> intro j <;> rcases j with _ | _ | _ | j <;> simp [timerCount]
    · have hbase : timerCount (if hasTimer then 1 else 0)
          ((if hasTimer then [AbEvt.clearTimer] else []) ++
            [AbEvt.setFrame fromF, AbEvt.setPlaying true, AbEvt.startTimer]) = 1 := by
        cases hasTimer <;> simp [timerCount]
      rw [hbase]
      apply timerCount_take_bound
      · intro j
        rw [← List.map_take, timerCount_map_setFrame]
      · rw [timerCount_map_setFrame]
        intro j
        rcases j with _ | _ | _ | _ | j <;> simp [timerCount]

/-- C8 witness: playRange(40, 1) with a previous timer live. -/
theorem playRange_reverse_witness :
    (1 : Int) < 40 ∧ PlayRangeOutcome true 40 1 :=
  ⟨by decide, playRange_reverse true 40 1 (by decide)⟩

/-! ### Route normalization -/

theorem isDigit_not_isWhitespace (c : Char) (h : c.isDigit = true) :
    c.isWhitespace = false := by
  by_contra hw
  rw [Bool.not_eq_false] at hw
  simp only [Char.isWhitespace, Bool.or_eq_true, decide_eq_true_eq] at hw
  rcases hw with ((rfl | rfl) | rfl) | rfl <;> exact absurd h (by decide)

theorem dropWhile_ws_of_digits (l : List Char) (h : l.all Char.isDigit = true) :
    l.dropWhile Char.isWhitespace = l := by
  cases l with
  | nil => rfl
  | cons c t =>
    have hc : c.isDigit = true := by
      simp only [List.all_cons, Bool.and_eq_true] at h
      exact h.1
    exact List.dropWhile_cons_of_neg (by simp [isDigit_not_isWhitespace c hc])

theorem all_digits_of_validNumber (s : String) (h : validNumber s = true) :
    s.data.all Char.isDigit = true := by
  simp only [validNumber, Bool.and_eq_true] at h
  exact h.2

theorem validNumber_ne_empty (s : String) (h : validNumber s = true) : s ≠ "" := by
  intro he
  subst he
  simp only [validNumber, Bool.and_eq_true, decide_eq_true_eq] at h
  exact absurd h.1.1 (by decide)

theorem jsTrimS_digits (s : String) (h : s.data.all Char.isDigit = true) :
    jsTrimS s = s := by
  have h2 : s.data.reverse.all Char.isDigit = true := by
    simp only [List.all_eq_true] at h ⊢
    exact fun c hc => h c (List.mem_reverse.mp hc)
  show String.mk (jsTrimL s.data) = s
  rw [jsTrimL, dropWhile_ws_of_digits _ h, dropWhile_ws_of_digits _ h2,
    List.reverse_reverse]

theorem normalizeRoute_trimmed_number (r : RawRoute)
    (hv : validNumber (jsTrimS (r.number.getD "")) = true) :
    (normalizeRoute { r with number := some (jsTrimS (r.number.getD "")) }).number =
      jsTrimS (r.number.getD "") := by
  have h0 : (normalizeRoute { r with number := some (jsTrimS (r.number.getD "")) }).number =
      jsTrimS (jsTrimS (r.number.getD "")) := rfl
  rw [h0, jsTrimS_digits _ (all_digits_of_validNumber _ hv)]

theorem finalizeRoute_number (r : RawRoute)
    (hv : validNumber (jsTrimS (r.number.getD "")) = true) :
    (finalizeRoute r).number = jsTrimS (r.number.getD "") := by
  rw [finalizeRoute]
  split
  · exact normalizeRoute_trimmed_number r hv
  · exact normalizeRoute_trimmed_number r hv

theorem finalizeRoute_model (r : RawRoute) :
    (finalizeRoute r).model =
      (normalizeRoute { r with number := some (jsTrimS (r.number.getD "")) }).model := by
  rw [finalizeRoute]
  split <;> rfl

theorem finalizeRoute_label_ne (r : RawRoute)
    (hv : validNumber (jsTrimS (r.number.getD "")) = true) :
    (finalizeRoute r).label ≠ "" := by
  rw [finalizeRoute]
  split
  · exact validNumber_ne_empty _ hv
  · next hl => exact hl

theorem normalizeRoutesGo_spec (rs : List RawRoute) : ∀ seen : List String,
    (∀ rt ∈ normalizeRoutesGo seen rs,
      seen.contains rt.number = false ∧
      validNumber rt.number = true ∧
      rt.model ≠ "" ∧ rt.label ≠ "" ∧
      ∃ r0, rs.find? (matchesNumber rt.number) = some r0 ∧ rt = finalizeRoute r0) ∧
    ((normalizeRoutesGo seen rs).map RouteConfig.number).Nodup := by
  induction rs with
  | nil =>
    intro seen
    constructor
    · intro rt h
      simp [normalizeRoutesGo] at h
    · simp [normalizeRoutesGo]
  | cons r rest ih =>
    intro seen
    cases hvn : validNumber (jsTrimS (r.number.getD "")) with
    | false =>
      have hgo : normalizeRoutesGo seen (r :: rest) = normalizeRoutesGo seen rest := by
        rw [normalizeRoutesGo, if_pos hvn]
      rw [hgo]
      refine ⟨fun rt h => ?_, (ih seen).2⟩
      obtain ⟨h1, h2, h3, h4, r0, h5, h6⟩ := (ih seen).1 rt h
      have hneg : ¬(matchesNumber rt.number r = true) := by
        simp [matchesNumber, hvn]
      exact ⟨h1, h2, h3, h4, r0, by rw [List.find?_cons_of_neg _ hneg]; exact h5, h6⟩
    | true =>
      have hvn2 : ¬(validNumber (jsTrimS (r.number.getD "")) = false) := by simp [hvn]
      cases hsn : seen.contains (jsTrimS (r.number.getD "")) with
      | true =>
        have hgo : normalizeRoutesGo seen (r :: rest) = normalizeRoutesGo seen rest := by
          rw [normalizeRoutesGo, if_neg hvn2, if_pos hsn]
        rw [hgo]
        refine ⟨fun rt h => ?_, (ih seen).2⟩
        obtain ⟨h1, h2, h3, h4, r0, h5, h6⟩ := (ih seen).1 rt h
        have hne : ¬(jsTrimS (r.number.getD "") = rt.number) := by
          intro he
          rw [he, h1] at hsn
          exact Bool.false_ne_true hsn
        have hneg : ¬(matchesNumber rt.number r = true) := by
          simp [matchesNumber, hvn, hne]
        exact ⟨h1, h2, h3, h4, r0, by rw [List.find?_cons_of_neg _ hneg]; exact h5, h6⟩
      | false =>
        by_cases hm :
          (normalizeRoute { r with number := some (jsTrimS (r.number.getD "")) }).model = ""
        · have hgo : normalizeRoutesGo seen (r :: rest) =
              normalizeRoutesGo (jsTrimS (r.number.getD "") :: seen) rest := by
            rw [normalizeRoutesGo, if_neg hvn2, if_neg (by rw [hsn]; simp), if_pos hm]
          rw [hgo]
          have ihs := ih (jsTrimS (r.number.getD "") :: seen)
          refine ⟨fun rt h => ?_, ihs.2⟩
          obtain ⟨h1, h2, h3, h4, r0, h5, h6⟩ := ihs.1 rt h
          simp only [List.contains_cons, Bool.or_eq_false_iff, beq_eq_false_iff_ne,
            ne_eq] at h1
          have hneg : ¬(matchesNumber rt.number r = true) := by
            simp [matchesNumber, hvn]
            intro he
            exact absurd he.symm h1.1
          exact ⟨h1.2, h2, h3, h4, r0,
            by rw [List.find?_cons_of_neg _ hneg]; exact h5, h6⟩
        · have hgo : normalizeRoutesGo seen (r :: rest) =
              finalizeRoute r :: normalizeRoutesGo (jsTrimS (r.number.getD "") :: seen) rest := by
            rw [normalizeRoutesGo, if_neg hvn2, if_neg (by rw [hsn]; simp), if_neg hm]
          rw [hgo]
          have ihs := ih (jsTrimS (r.number.getD "") :: seen)
          have hfn : (finalizeRoute r).number = jsTrimS (r.number.getD "") :=
            finalizeRoute_number r hvn
          constructor
          · intro rt h
            rcases List.mem_cons.mp h with rfl | h
            · refine ⟨?_, ?_, ?_, ?_, r, ?_, rfl⟩
              · rw [hfn]; exact hsn
              · rw [hfn]; exact hvn
              · rw [finalizeRoute_model]; exact hm
              · exact finalizeRoute_label_ne r hvn
              · have hpos : matchesNumber (finalizeRoute r).number r = true := by
                  rw [hfn]
                  simp [matchesNumber, hvn]
                rw [List.find?_cons_of_pos _ hpos]
            · obtain ⟨h1, h2, h3, h4, r0, h5, h6⟩ := ihs.1 rt h
              simp only [List.contains_cons, Bool.or_eq_false_iff, beq_eq_false_iff_ne,
                ne_eq] at h1
              have hneg : ¬(matchesNumber rt.number r = true) := by
                simp [matchesNumber, hvn]
                intro he
                exact absurd he.symm h1.1
              exact ⟨h1.2, h2, h3, h4, r0,
                by rw [List.find?_cons_of_neg _ hneg]; exact h5, h6⟩
          · rw [List.map_cons]
            refine List.nodup_cons.mpr ⟨?_, ihs.2⟩
            intro hmem
            obtain ⟨rt2, hrt2, hnum⟩ := List.mem_map.mp hmem
            obtain ⟨h1, -, -, -, -, -, -⟩ := ihs.1 rt2 hrt2
            rw [hnum, hfn] at h1
            simp [List.contains_cons] at h1

theorem nodup_map_filter_le_one {α β : Type} [DecidableEq β] (f : α → β) :
    ∀ l : List α, (l.map f).Nodup → ∀ n, (l.filter fun x => f x == n).length ≤ 1 := by
  intro l
  induction l with
  | nil => intro _ n; simp
  | cons a t ih =>
    intro hnd n
    rw [List.map_cons, List.nodup_cons] at hnd
    by_cases ha : f a = n
    · rw [List.filter_cons_of_pos (by simp [ha])]
      have ht : t.filter (fun x => f x == n) = [] := by
        rw [List.filter_eq_nil_iff]
        intro x hx hfx
        simp only [beq_iff_eq] at hfx
        exact hnd.1 (List.mem_map.mpr ⟨x, hx, by rw [hfx, ha]⟩)
      rw [ht]
      simp
    · rw [List.filter_cons_of_neg (by simp [ha])]
      exact ih hnd.2 n

/-- What C10 asserts of the normalized route list: every surviving route
    has a number matching 1 to 11 decimal digits, a non-empty model and a
    non-empty label (an absent label defaults to the number); the
    surviving route is the finalization of the first raw row carrying its
    (valid) number; numbers are pairwise distinct, so resolution by
    number matches at most one route. -/
def RouteFacts (rs : List RawRoute) (rt : RouteConfig) : Prop :=
  validNumber rt.number = true ∧ rt.model ≠ "" ∧ rt.label ≠ "" ∧
  (∃ r0, rs.find? (matchesNumber rt.number) = some r0 ∧ rt = finalizeRoute r0) ∧
  ((normalizeRoutes rs).map RouteConfig.number).Nodup ∧
  (∀ n, ((normalizeRoutes rs).filter fun x => x.number == n).length ≤ 1) ∧
  (∀ r2 : RawRoute, r2.label = none →
    (normalizeRoute r2).label = jsTrimS (r2.number.getD ""))

/-- C10: normalizeRoutes keeps only routes with a 1-to-11-digit number
    and a non-empty model, defaults absent/empty labels to the number,
    and keeps pairwise-distinct numbers with the first occurrence of a
    duplicated number winning, so resolvePersona matches at most one
    route. -/
theorem normalizeRoutes_sound (rs : List RawRoute) (rt : RouteConfig)
    (h : rt ∈ normalizeRoutes rs) : RouteFacts rs rt := by
  have hspec := normalizeRoutesGo_spec rs []
  obtain ⟨-, h2, h3, h4, hex⟩ := hspec.1 rt h
  refine ⟨h2, h3, h4, hex, hspec.2, fun n => ?_, fun r2 hl => ?_⟩
  · exact nodup_map_filter_le_one RouteConfig.number (normalizeRoutes rs) hspec.2 n
  · simp [normalizeRoute, hl]

def rawPlutus : RawRoute := { number := some "18005551212", model := some "plutus-model" }

/-- C10 witness: a concrete raw route list run through normalizeRoutes. -/
theorem normalizeRoutes_sound_witness :
    finalizeRoute rawPlutus ∈ normalizeRoutes [rawPlutus] ∧
      RouteFacts [rawPlutus] (finalizeRoute rawPlutus) :=
  ⟨by decide, normalizeRoutes_sound [rawPlutus] (finalizeRoute rawPlutus) (by decide)⟩

end Payphone
